import Mathlib

/-!
Verification of the SiteCloneScrape server (server.js) against its design
specification.  The JavaScript functions are shallowly embedded as total Lean
functions; the external world (the Firecrawl scraping provider, the LLM
providers, the HTTP fetch, the clock and the random-id source) is modelled as
an explicit environment record passed to each function.  JavaScript exceptions
are modelled with `Except`; `try`/`catch` blocks become `match` on the
`Except` value.  JavaScript strings are modelled as Lean `String`
(`substring`/`length` count characters rather than UTF-16 code units, which
makes no difference for the properties proved here).
-/

/-! ## String primitives (models of the JavaScript string builtins used) -/

/-- The single-quote character, used by the attribute regexes. -/
def quoteChar : Char := Char.ofNat 39

/-- `chPref needle hay` is true when `needle` is a prefix of `hay`. -/
def chPref : List Char → List Char → Bool
  | [], _ => true
  | _ :: _, [] => false
  | a :: as, b :: bs => a == b && chPref as bs

/-- Model of JavaScript `String.prototype.startsWith`. -/
def strStarts (s p : String) : Bool := chPref p.toList s.toList

/-- Model of JavaScript `String.prototype.endsWith`. -/
def strEnds (s p : String) : Bool := chPref p.toList.reverse s.toList.reverse

/-- `chHasSub needle hay`: `needle` occurs as a contiguous run in `hay`.
Model of JavaScript `String.prototype.includes`. -/
def chHasSub (needle : List Char) : List Char → Bool
  | [] => needle.isEmpty
  | c :: cs => chPref needle (c :: cs) || chHasSub needle cs

/-- Model of JavaScript `String.prototype.includes`. -/
def strIncludes (hay needle : String) : Bool := chHasSub needle.toList hay.toList

/-- Model of JavaScript `String.prototype.substring(0, n)` (character count). -/
def strTake (s : String) (n : Nat) : String := String.mk (s.toList.take n)

/-- Model of JavaScript `String.prototype.toLowerCase`. -/
def strLower (s : String) : String := String.mk (s.toList.map Char.toLower)

/-- Model of JavaScript `String.prototype.trim`. -/
def strTrim (s : String) : String :=
  String.mk (((s.toList.dropWhile Char.isWhitespace).reverse.dropWhile Char.isWhitespace).reverse)

/-- Splitter for `strSplitOn`; the fuel argument is bounded by the input
length, which always suffices because each step consumes at least one
character. -/
def splitOnAux (sep : List Char) : Nat → List Char → List Char → List (List Char)
  | _, acc, [] => [acc.reverse]
  | 0, acc, rest => [acc.reverse ++ rest]
  | fuel + 1, acc, c :: cs =>
    if chPref sep (c :: cs) then
      acc.reverse :: splitOnAux sep fuel [] ((c :: cs).drop sep.length)
    else
      splitOnAux sep fuel (c :: acc) cs

/-- Model of JavaScript `String.prototype.split` on a literal separator. -/
def strSplitOn (s sep : String) : List String :=
  if sep.isEmpty then [s]
  else (splitOnAux sep.toList s.toList.length [] s.toList).map String.mk

/-- Join a list of strings with a separator. -/
def strJoin (sep : String) : List String → String
  | [] => ""
  | x :: xs => xs.foldl (fun acc y => acc ++ sep ++ y) x

/-- Model of JavaScript `String.prototype.replace` with a global literal
pattern: split on the pattern and re-join with the replacement. -/
def strReplace (s pat rep : String) : String := strJoin rep (strSplitOn s pat)

/-- Model of the JavaScript string-coercion `||` operator: the empty string is
falsy, every other string is truthy. -/
def jsOr (a b : String) : String := if a == "" then b else a

/-- Model of `a?.b || d` where the optional chain may be absent and the empty
string is falsy. -/
def jsOrU (a : Option String) (d : String) : String :=
  match a with
  | none => d
  | some s => if s == "" then d else s

/-! ## Order-preserving deduplication

`[...new Set(xs)]` in JavaScript keeps the first occurrence of each element in
insertion order; `filter((x, i, a) => a.findIndex(...) === i)` keeps the first
occurrence of each key.  Both are modelled by `dedupByKey`. -/

/-- Order-preserving dedup keeping first occurrences, keyed by `key`; `seen`
are the keys already emitted. -/
def dedupByKey {α : Type} (key : α → String) (seen : List String) : List α → List α
  | [] => []
  | x :: xs =>
    if key x ∈ seen then dedupByKey key seen xs
    else x :: dedupByKey key (key x :: seen) xs

/-! ## Generic scanners for the regex-based extraction

The JavaScript code extracts structure with regexes.  A global regex match is
the leftmost-first scan below: at every position try the pattern; on success
continue after the match, on failure advance one character.  The fuel argument
is always instantiated with the input length plus one, which suffices because
every step consumes at least one character. -/

/-- First match of `step` over all suffixes (model of a non-global regex
search). -/
def scanFirst {α : Type} (step : List Char → Option α) : Nat → List Char → Option α
  | 0, _ => none
  | _ + 1, [] => none
  | fuel + 1, c :: cs =>
    match step (c :: cs) with
    | some a => some a
    | none => scanFirst step fuel cs

/-- All matches of `step` over the input, resuming after each match (model of
a global regex search). -/
def scanAll {α : Type} (step : List Char → Option (α × List Char)) : Nat → List Char → List α
  | 0, _ => []
  | _ + 1, [] => []
  | fuel + 1, c :: cs =>
    match step (c :: cs) with
    | some (a, rest) => a :: scanAll step fuel rest
    | none => scanAll step fuel cs

/-- Case-insensitive literal match; returns the remainder on success. -/
def ciMatch : List Char → List Char → Option (List Char)
  | [], cs => some cs
  | _ :: _, [] => none
  | p :: ps, c :: cs => if p.toLower == c.toLower then ciMatch ps cs else none

/-- The quote class `["']` of the attribute regexes. -/
def isQuote (c : Char) : Bool := c == '"' || c == quoteChar

/-- Match `name=["']([^"']+)["']` (case-insensitive) at the current position;
returns the captured group and the remainder.  Models the `href`/`src`/`alt`
attribute regexes of `extractLinks` and `extractImages`. -/
def matchAttrAt (nm : List Char) (cs : List Char) : Option (String × List Char) :=
  match ciMatch (nm ++ ['=']) cs with
  | none => none
  | some rest =>
    match rest with
    | [] => none
    | q :: rest2 =>
      if isQuote q then
        let body := rest2.takeWhile (fun c => !(isQuote c))
        if body.isEmpty then none
        else
          match rest2.drop body.length with
          | [] => none
          | q2 :: rest3 => if isQuote q2 then some (String.mk body, rest3) else none
      else none

/-- All captures of the `name=["']([^"']+)["']` pattern in `s`. -/
def scanAttrs (nm : String) (s : String) : List String :=
  scanAll (matchAttrAt nm.toList) (s.toList.length + 1) s.toList

/-- The captures of the global `href=["']([^"']+)["']` scan of `extractLinks`. -/
def hrefCaptures (html : String) : List String := scanAttrs "href" html

/-- Match `<img[^>]+>` at the current position and return the whole tag text
with the remainder. -/
def matchImgTagAt (cs : List Char) : Option (String × List Char) :=
  match cs with
  | a :: b :: c :: d :: rest =>
    if a == '<' && b.toLower == 'i' && c.toLower == 'm' && d.toLower == 'g' then
      let body := rest.takeWhile (fun ch => ch != '>')
      if body.isEmpty then none
      else
        match rest.drop body.length with
        | '>' :: rest2 => some (String.mk (a :: b :: c :: d :: (body ++ ['>'])), rest2)
        | _ => none
    else none
  | _ => none

/-- All `<img ...>` tags of the global `<img[^>]+>` scan of `extractImages`. -/
def scanImgTags (html : String) : List String :=
  scanAll matchImgTagAt (html.toList.length + 1) html.toList

/-! ## Model of the WHATWG URL parse (`new URL(...)`)

The source resolves relative links with the platform `URL` class.  Only the
`origin` and `pathname` accessors are used.  The model below covers
`scheme://host[/path][?query][#frag]`; case normalisation, default ports,
userinfo and other WHATWG details are not modelled (no claim depends on
them).  A `none` result models the `TypeError` thrown on an unparseable URL. -/

structure UrlParts where
  origin : String
  pathname : String
deriving DecidableEq

/-- Scheme check: letters, digits, `+`, `-`, `.`, starting with a letter. -/
def schemeOk (s : String) : Bool :=
  match s.toList with
  | [] => false
  | c :: cs => c.isAlpha && cs.all (fun d => d.isAlpha || d.isDigit || d == '+' || d == '-' || d == '.')

/-- Model of `new URL(u)` restricted to the `origin`/`pathname` fields. -/
def urlParse (u : String) : Option UrlParts :=
  match strSplitOn u "://" with
  | [] => none
  | [_] => none
  | scheme :: rest =>
    let after := strJoin "://" rest
    if schemeOk scheme then
      let host := String.mk (after.toList.takeWhile (fun c => c != '/' && c != '?' && c != '#'))
      if host == "" then none
      else
        let tail := String.mk (after.toList.drop host.length)
        let pathname :=
          if strStarts tail "/" then String.mk (tail.toList.takeWhile (fun c => c != '?' && c != '#'))
          else "/"
        some ⟨scheme ++ "://" ++ host, pathname⟩
    else none

/-- Model of `new URL(u).origin`. -/
def urlOrigin (u : String) : Option String := (urlParse u).map UrlParts.origin

/-! ## Content Extractor (server.js lines 1097-1198)

`extractBusinessInfo`, `extractTitleFromContent`,
`extractDescriptionFromContent`, `extractLinks`, `extractImages`. -/

/-- Character class of the email local part `[A-Za-z0-9._%+-]`. -/
def emailLocalChar (c : Char) : Bool :=
  c.isAlpha || c.isDigit || c == '.' || c == '_' || c == '%' || c == '+' || c == '-'

/-- Character class of the email domain part `[A-Za-z0-9.-]`. -/
def emailDomChar (c : Char) : Bool := c.isAlpha || c.isDigit || c == '.' || c == '-'

/-- The domain must end in a dot followed by at least two letters
(`\.[A-Z|a-z]{2,}`). -/
def emailTldOk (dom : List Char) : Bool :=
  let revd := dom.reverse
  let tld := revd.takeWhile Char.isAlpha
  match revd.drop tld.length with
  | '.' :: d => decide (2 ≤ tld.length) && !d.isEmpty
  | _ => false

/-- Attempt an email match at the current position. -/
def emailAt (cs : List Char) : Option String :=
  let loc := cs.takeWhile emailLocalChar
  if loc.isEmpty then none
  else
    match cs.drop loc.length with
    | '@' :: rest =>
      let dom := rest.takeWhile emailDomChar
      if emailTldOk dom then some (String.mk (loc ++ '@' :: dom)) else none
    | _ => none

/-- Model of the email regex `\b[A-Za-z0-9._%+-]+@[A-Za-z0-9.-]+\.[A-Z|a-z]{2,}\b`
(first match).  The word boundaries and the backtracking of the trailing
boundary are approximated by the leftmost greedy scan. -/
def firstEmailMatch (s : String) : Option String :=
  scanFirst emailAt (s.toList.length + 1) s.toList

/-- The separator class `[-.\s]` of the phone regex. -/
def phoneSep (c : Char) : Bool := c == '-' || c == '.' || c.isWhitespace

/-- Consume exactly `n` digits. -/
def digitsN : Nat → List Char → Option (List Char)
  | 0, cs => some cs
  | _ + 1, [] => none
  | n + 1, c :: cs => if c.isDigit then digitsN n cs else none

/-- Consume `(\(?\d{3}\)?[-.\s]?\d{3}[-.\s]?\d{4})` and return the remainder. -/
def phoneCore (cs : List Char) : Option (List Char) :=
  let cs1 := match cs with | '(' :: r => r | _ => cs
  (digitsN 3 cs1).bind fun cs2 =>
    let cs3 := match cs2 with | ')' :: r => r | _ => cs2
    let cs4 := match cs3 with
      | c :: r => if phoneSep c then r else cs3
      | [] => cs3
    (digitsN 3 cs4).bind fun cs5 =>
      let cs6 := match cs5 with
        | c :: r => if phoneSep c then r else cs5
        | [] => cs5
      digitsN 4 cs6

/-- Attempt a phone match at the current position, returning the matched text. -/
def phoneAt (cs : List Char) : Option String :=
  (phoneCore cs).map (fun rest => String.mk (cs.take (cs.length - rest.length)))

/-- Model of the phone regex (first match).  Only the first alternative
(`(xxx) xxx-xxxx` style) of the source pattern is modelled; the loose
international alternative is not (no claim depends on which strings the
pattern accepts). -/
def firstPhoneMatch (s : String) : Option String :=
  scanFirst phoneAt (s.toList.length + 1) s.toList

/-- The street-type keywords of the address regex. -/
def streetTypes : List String :=
  ["Street", "St", "Avenue", "Ave", "Road", "Rd", "Drive", "Dr", "Lane", "Ln", "Boulevard", "Blvd"]

/-- Attempt an address match at the current position: house number, space,
street words ending in a street-type keyword. -/
def addressAt (cs : List Char) : Option String :=
  let num := cs.takeWhile Char.isDigit
  if num.isEmpty then none
  else
    match cs.drop num.length with
    | ' ' :: rest =>
      let name := rest.takeWhile (fun c => c.isAlpha || c == ' ')
      if name.isEmpty then none
      else
        let ws := (strSplitOn (String.mk name) " ").filter (fun w => w != "")
        if decide (2 ≤ ws.length) && streetTypes.any (fun t => ws.getLast? == some t) then
          some (String.mk (num ++ ' ' :: name))
        else none
    | _ => none

/-- Simplified model of the street-address regex (first match): the
city/state/ZIP tail required by the source pattern is not modelled (no claim
depends on which strings the pattern accepts). -/
def firstAddressMatch (s : String) : Option String :=
  scanFirst addressAt (s.toList.length + 1) s.toList

/-- The `businessInfo` object: each field is set only when its pattern
matches somewhere in the content. -/
structure BusinessContactInfo where
  email : Option String
  phone : Option String
  address : Option String
deriving DecidableEq

/-- server.js `extractBusinessInfo`: first match of each of the three
patterns, fields omitted (`none`) when there is no match. -/
def extractBusinessInfo (content : String) : BusinessContactInfo :=
  { email := firstEmailMatch content
    phone := firstPhoneMatch content
    address := firstAddressMatch content }

/-- server.js `extractTitleFromContent`: first line with non-blank trim,
trimmed and truncated to 100 characters; fixed placeholder otherwise. -/
def extractTitleFromContent (content : String) : String :=
  let lines := (strSplitOn content "\n").filter (fun l => !(strTrim l == ""))
  match lines with
  | [] => "Website Title"
  | l :: _ => strTake (strTrim l) 100

/-- server.js `extractDescriptionFromContent`: first sentence (split on `.`)
whose trimmed length exceeds 20, trimmed, truncated to 200, with a period
appended; empty string otherwise. -/
def extractDescriptionFromContent (content : String) : String :=
  let sentences := (strSplitOn content ".").filter (fun s => decide (20 < (strTrim s).length))
  match sentences with
  | [] => ""
  | s :: _ => strTake (strTrim s) 200 ++ "."

/-- Resolution step of `extractLinks`: root-relative links are prefixed with
the origin of `baseUrl`; every other link is kept verbatim.  The `getD ""`
branch is unreachable in `extractLinks`, which returns `[]` before mapping
whenever a root-relative link occurs and `baseUrl` does not parse. -/
def resolveLink (baseUrl u : String) : String :=
  if strStarts u "/" then ((urlOrigin baseUrl).getD "") ++ u else u

/-- server.js `extractLinks`: scan `href` attributes, resolve root-relative
links against the origin of `baseUrl`, keep links starting with `http`,
deduplicate keeping first occurrences, cap at 15.  When `new URL(baseUrl)`
would throw while resolving a root-relative link, the enclosing `catch`
returns the empty list. -/
def extractLinks (html baseUrl : String) : List String :=
  if (hrefCaptures html).any (fun u => strStarts u "/") && (urlOrigin baseUrl).isNone then []
  else
    (dedupByKey (fun l => l) []
      (((hrefCaptures html).map (resolveLink baseUrl)).filter
        (fun l => strStarts l "http"))).take 15

/-- One extracted image: resolved URL and alt text. -/
structure ImageEntry where
  url : String
  alt : String
deriving DecidableEq

/-- The `src`/`alt` pairs of all `<img>` tags; tags without a `src` capture
are dropped, a missing `alt` capture defaults to the empty string. -/
def imgSrcAlt (html : String) : List (String × String) :=
  (scanImgTags html).filterMap (fun t =>
    match (scanAttrs "src" t).head? with
    | none => none
    | some s => some (s, ((scanAttrs "alt" t).head?).getD ""))

/-- The raw `src` captures of all `<img>` tags of `html`. -/
def imgTagSrcs (html : String) : List String := (imgSrcAlt html).map Prod.fst

/-- Resolution step of `extractImages`: root-relative srcs are prefixed with
the origin; absolute `http...` srcs are kept; other srcs are resolved against
the pathname of `baseUrl`, and dropped (`none`, the inner `catch`) when
`baseUrl` does not parse. -/
def resolveImg (baseUrl s : String) : Option String :=
  if strStarts s "/" then (urlParse baseUrl).map (fun p => p.origin ++ s)
  else if strStarts s "http" then some s
  else
    (urlParse baseUrl).map (fun p =>
      p.origin ++ (if strEnds p.pathname "/" then p.pathname else p.pathname ++ "/") ++ s)

/-- server.js `extractImages`: scan `<img>` tags, resolve srcs, keep entries
whose URL starts with `http`, deduplicate by URL keeping first occurrences,
cap at 100.  When `new URL(baseUrl)` would throw while resolving a
root-relative src (that branch is outside the inner `try`), the enclosing
`catch` returns the empty list; a parse failure while resolving a plain
relative src only drops that entry. -/
def extractImages (html baseUrl : String) : List ImageEntry :=
  if (imgSrcAlt html).any (fun sa => strStarts sa.1 "/") && (urlParse baseUrl).isNone then []
  else
    (dedupByKey ImageEntry.url []
      (((imgSrcAlt html).filterMap (fun sa =>
        (resolveImg baseUrl sa.1).map (fun u => ImageEntry.mk u sa.2))).filter
          (fun e => strStarts e.url "http"))).take 100

/-! ## HTML stripping used by the enhanced (direct-fetch) scraper

Models of the regex `replace` chain of `enhancedScrapeWebsite`
(server.js lines 1040-1048). -/

/-- Find the closing `</tag>` (case-insensitive) and return the remainder
after it. -/
def findCloseTag (tag : List Char) : Nat → List Char → Option (List Char)
  | 0, _ => none
  | _ + 1, [] => none
  | fuel + 1, c :: cs =>
    match ciMatch ('<' :: '/' :: (tag ++ ['>'])) (c :: cs) with
    | some rest => some rest
    | none => findCloseTag tag fuel cs

/-- Model of `html.replace(/<tag[^>]*>[\s\S]*?<\/tag>/gi, '')`: drop every
block from an opening `<tag ...>` to the nearest closing `</tag>`. -/
def stripTagBlocksAux (tag : List Char) : Nat → List Char → List Char
  | 0, cs => cs
  | _ + 1, [] => []
  | fuel + 1, c :: cs =>
    match ciMatch ('<' :: tag) (c :: cs) with
    | some rest =>
      let body := rest.takeWhile (fun ch => ch != '>')
      match rest.drop body.length with
      | '>' :: rest2 =>
        match findCloseTag tag (rest2.length + 1) rest2 with
        | some rest3 => stripTagBlocksAux tag fuel rest3
        | none => c :: stripTagBlocksAux tag fuel cs
      | _ => c :: stripTagBlocksAux tag fuel cs
    | none => c :: stripTagBlocksAux tag fuel cs

/-- String wrapper for `stripTagBlocksAux`. -/
def stripTagBlocks (tag : String) (s : String) : String :=
  String.mk (stripTagBlocksAux tag.toList (s.toList.length + 1) s.toList)

/-- Model of `.replace(/<[^>]+>/g, ' ')`: replace every complete tag with a
space. -/
def stripAllTagsAux : Nat → List Char → List Char
  | 0, cs => cs
  | _ + 1, [] => []
  | fuel + 1, c :: cs =>
    if c == '<' then
      let body := cs.takeWhile (fun ch => ch != '>')
      if body.isEmpty then c :: stripAllTagsAux fuel cs
      else
        match cs.drop body.length with
        | '>' :: rest => ' ' :: stripAllTagsAux fuel rest
        | _ => c :: stripAllTagsAux fuel cs
    else c :: stripAllTagsAux fuel cs

/-- String wrapper for `stripAllTagsAux`. -/
def stripAllTags (s : String) : String :=
  String.mk (stripAllTagsAux (s.toList.length + 1) s.toList)

/-- Model of `.replace(/\s+/g, ' ')`: collapse whitespace runs to single
spaces.  The Boolean argument records whether the previous character was
whitespace. -/
def collapseWsAux : Bool → List Char → List Char
  | _, [] => []
  | pw, c :: cs =>
    if c.isWhitespace then
      if pw then collapseWsAux true cs else ' ' :: collapseWsAux true cs
    else c :: collapseWsAux false cs

/-- String wrapper for `collapseWsAux`. -/
def collapseWs (s : String) : String := String.mk (collapseWsAux false s.toList)

/-- The text-derivation chain of `enhancedScrapeWebsite`: strip
script/style/nav/footer/header blocks, strip remaining tags, collapse
whitespace, trim. -/
def deriveTextContent (html : String) : String :=
  strTrim (collapseWs (stripAllTags
    (stripTagBlocks "header" (stripTagBlocks "footer" (stripTagBlocks "nav"
      (stripTagBlocks "style" (stripTagBlocks "script" html)))))))

/-- Match `<title[^>]*>([^<]+)<\/title>` (case-insensitive) at the current
position. -/
def titleAt (cs : List Char) : Option String :=
  match ciMatch "<title".toList cs with
  | none => none
  | some rest =>
    let attrs := rest.takeWhile (fun c => c != '>')
    match rest.drop attrs.length with
    | '>' :: rest2 =>
      let body := rest2.takeWhile (fun c => c != '<')
      if body.isEmpty then none
      else
        match ciMatch "</title>".toList (rest2.drop body.length) with
        | some _ => some (String.mk body)
        | none => none
    | _ => none

/-- Model of the `<title>` regex match of `enhancedScrapeWebsite`. -/
def titleTagMatch (html : String) : Option String :=
  scanFirst titleAt (html.toList.length + 1) html.toList

/-- Scan a tag body (the run before `>`) for `nm=["']val["']`
(case-insensitive) and return the remainder after it. -/
def findAttrEq (nm val : List Char) : Nat → List Char → Option (List Char)
  | 0, _ => none
  | _ + 1, [] => none
  | fuel + 1, c :: cs =>
    match ciMatch (nm ++ ['=']) (c :: cs) with
    | some (q :: rest) =>
      if isQuote q then
        match ciMatch val rest with
        | some (q2 :: rest2) =>
          if isQuote q2 then some rest2 else findAttrEq nm val fuel cs
        | _ => findAttrEq nm val fuel cs
      else findAttrEq nm val fuel cs
    | _ => findAttrEq nm val fuel cs

/-- Match one `<meta ... nm=["']val["'] ... content=["'](...)["'] ...>` tag at
the current position; the search for both attributes is confined to the tag
body before `>` (the source regexes use `[^>]*` between the attributes). -/
def metaDescAt (nm val : List Char) (cs : List Char) : Option String :=
  match ciMatch "<meta".toList cs with
  | none => none
  | some rest =>
    let inside := rest.takeWhile (fun c => c != '>')
    (findAttrEq nm val (inside.length + 1) inside).bind (fun after =>
      scanFirst (fun l => (matchAttrAt "content".toList l).map Prod.fst) (after.length + 1) after)

/-- Model of the meta-description match of `enhancedScrapeWebsite`: the
`name="description"` regex, falling back to the `property="og:description"`
regex. -/
def metaDescMatch (html : String) : Option String :=
  match scanFirst (metaDescAt "name".toList "description".toList) (html.toList.length + 1) html.toList with
  | some d => some d
  | none =>
    scanFirst (metaDescAt "property".toList "og:description".toList) (html.toList.length + 1) html.toList

/-! ## Scrape Orchestrator data model (server.js lines 788-1094) -/

/-- The `metadata` object of a ScrapedSite.  Fields that some code paths omit
are `Option`s; `none` models an absent key. -/
structure ScrapeMetadata where
  scrapedAt : String
  url : String
  method : String
  wordCount : Option Nat
  imageCount : Option Nat
  hasContactInfo : Option Bool
  totalPagesDiscovered : Option Nat
  pagesScraped : Option Nat
  priorityPagesFound : Option Nat
  scrapedUrls : Option (List String)
  sitemapComplete : Option Bool
  error : Option String
deriving DecidableEq

/-- A scrape result as produced by any of the strategies. -/
structure ScrapedSite where
  title : String
  description : String
  content : String
  fullContent : Option String
  links : List String
  images : List ImageEntry
  businessInfo : BusinessContactInfo
  sitemap : Option (List String)
  metadata : ScrapeMetadata
deriving DecidableEq

/-- One successful Firecrawl page result.  Only the fields the server reads
are modelled: a present `markdown` (the code treats a missing `markdown` as
failure, modelled by `Except.ok none`), the optional `html`, and the
`metadata.title`/`metadata.description` keys.  The `...scrapeResult.metadata`
spread in `scrapeSinglePage` therefore adds no key that could shadow the
locally computed metadata fields. -/
structure ScrapePage where
  markdown : String
  html : Option String
  metaTitle : Option String
  metaDescription : Option String

/-- The external world of one scrape request: the Firecrawl `/map` call, the
per-URL Firecrawl `scrape` call, the direct HTTP fetch of the target URL, and
the clock.  `Except.error` models a thrown exception. -/
structure ScrapeEnv where
  mapResult : Except String (List String)
  scrape : String → Except String (Option ScrapePage)
  fetchHtml : Except String String
  now : String

/-- server.js `enhancedScrapeWebsite`: direct fetch, regex parsing, and the
terminal error-fallback result that carries the error message.  Note that the
error-fallback metadata object has no `wordCount`, `imageCount` or
`hasContactInfo` key. -/
def enhancedScrapeWebsite (env : ScrapeEnv) (url : String) : ScrapedSite :=
  match env.fetchHtml with
  | .error e =>
    { title := "Website Title"
      description := "Website description not available"
      content := "Could not extract content from this website. Please check the URL and try again."
      fullContent := none
      links := []
      images := []
      businessInfo := { email := none, phone := none, address := none }
      sitemap := none
      metadata :=
        { scrapedAt := env.now, url := url, method := "fallback"
          wordCount := none, imageCount := none, hasContactInfo := none
          totalPagesDiscovered := none, pagesScraped := none, priorityPagesFound := none
          scrapedUrls := none, sitemapComplete := none, error := some e } }
  | .ok html =>
    let textContent := deriveTextContent html
    let businessInfo := extractBusinessInfo textContent
    let links := extractLinks html url
    let images := extractImages html url
    let title := match titleTagMatch html with
      | some t => strTrim t
      | none => "Website Title"
    let description := match metaDescMatch html with
      | some d => strTrim d
      | none => extractDescriptionFromContent textContent
    { title := title
      description := description
      content := strTake textContent 8000
      fullContent := some textContent
      links := links
      images := images
      businessInfo := businessInfo
      sitemap := none
      metadata :=
        { scrapedAt := env.now, url := url, method := "enhanced"
          wordCount := some (strSplitOn textContent " ").length
          imageCount := some images.length
          hasContactInfo := some (businessInfo.email.isSome || businessInfo.phone.isSome)
          totalPagesDiscovered := none, pagesScraped := none, priorityPagesFound := none
          scrapedUrls := none, sitemapComplete := none, error := none } }

/-- server.js `scrapeSinglePage`: one Firecrawl scrape of the original URL;
a thrown error or a result without `markdown` falls through to
`enhancedScrapeWebsite`. -/
def scrapeSinglePage (env : ScrapeEnv) (url : String) : ScrapedSite :=
  match env.scrape url with
  | .error _ => enhancedScrapeWebsite env url
  | .ok none => enhancedScrapeWebsite env url
  | .ok (some page) =>
    let content := page.markdown
    let title := jsOr (page.metaTitle.getD "") (extractTitleFromContent content)
    let description := jsOr (page.metaDescription.getD "") (extractDescriptionFromContent content)
    let businessInfo := extractBusinessInfo content
    let links := extractLinks (page.html.getD "") url
    let images := extractImages (page.html.getD "") url
    { title := jsOr title "Website Title"
      description := jsOr description ""
      content := strTake content 10000
      fullContent := some content
      links := links
      images := images
      businessInfo := businessInfo
      sitemap := none
      metadata :=
        { scrapedAt := env.now, url := url, method := "firecrawl-single"
          wordCount := some (strSplitOn content " ").length
          imageCount := some images.length
          hasContactInfo := some (businessInfo.email.isSome || businessInfo.phone.isSome)
          totalPagesDiscovered := none, pagesScraped := none, priorityPagesFound := none
          scrapedUrls := none, sitemapComplete := none, error := none } }

/-- The fixed keyword list used to prioritise discovered pages. -/
def priorityKeywords : List String :=
  ["about", "service", "contact", "product", "team", "portfolio", "pricing", "features"]

/-- Case-insensitive keyword test applied to each discovered URL. -/
def keywordHit (u : String) : Bool :=
  priorityKeywords.any (fun k => strIncludes (strLower u) k)

/-- The ordered page set of the sitemap strategy: homepage, the first 12
keyword-matching discovered URLs, the first 8 discovered URLs; then
deduplicate keeping first occurrences and cap at 8 (server.js lines
824-839). -/
def computeUrlsToScrape (url : String) (links : List String) : List String :=
  (dedupByKey (fun l => l) []
    ([url] ++ (links.filter keywordHit).take 12 ++ links.take 8)).take 8

/-- Merge of per-page business info via `Object.assign`: a present field of
the page overwrites, an absent field keeps the accumulator. -/
def assignBusinessInfo (acc page : BusinessContactInfo) : BusinessContactInfo :=
  { email := match page.email with | some e => some e | none => acc.email
    phone := match page.phone with | some p => some p | none => acc.phone
    address := match page.address with | some a => some a | none => acc.address }

/-- The per-page header block appended to the combined content. -/
def pageBlock (pageUrl : String) (page : ScrapePage) : String :=
  "\n\n=== PAGE: " ++ pageUrl ++ " ===\n" ++
  "TITLE: " ++ page.metaTitle.getD "" ++ "\n" ++
  "DESCRIPTION: " ++ page.metaDescription.getD "" ++ "\n" ++
  "CONTENT: " ++ page.markdown ++ "\n"

/-- Aggregation of the successfully scraped pages into the
`firecrawl-sitemap-comprehensive` result (server.js lines 888-960). -/
def aggregateSitemap (env : ScrapeEnv) (url : String) (allDiscoveredUrls : List String)
    (scrapedPages : List (String × ScrapePage)) : ScrapedSite :=
  let combinedContent := scrapedPages.foldl (fun acc up => acc ++ pageBlock up.1 up.2) ""
  let td := scrapedPages.foldl (fun (acc : String × String) up =>
    if up.1 == url || acc.1 == "" then
      (jsOr (up.2.metaTitle.getD "") (extractTitleFromContent up.2.markdown),
       jsOr (up.2.metaDescription.getD "") (extractDescriptionFromContent up.2.markdown))
    else acc) ("", "")
  let allBusinessInfo := scrapedPages.foldl
    (fun acc up => assignBusinessInfo acc (extractBusinessInfo up.2.markdown))
    { email := none, phone := none, address := none }
  let allLinks := scrapedPages.foldl (fun acc up =>
    match up.2.html with
    | some h => acc ++ extractLinks h up.1
    | none => acc) []
  let allImages := scrapedPages.foldl (fun acc up =>
    match up.2.html with
    | some h => acc ++ extractImages h up.1
    | none => acc) []
  let finalLinks := dedupByKey (fun l => l) [] allLinks
  let finalImages := dedupByKey ImageEntry.url [] allImages
  { title := jsOr td.1 "Website Title"
    description := jsOr td.2 ""
    content := strTake combinedContent 50000
    fullContent := some combinedContent
    links := finalLinks
    images := finalImages
    businessInfo := allBusinessInfo
    sitemap := some allDiscoveredUrls
    metadata :=
      { scrapedAt := env.now, url := url, method := "firecrawl-sitemap-comprehensive"
        wordCount := some (strSplitOn combinedContent " ").length
        imageCount := some finalImages.length
        hasContactInfo := some (allBusinessInfo.email.isSome || allBusinessInfo.phone.isSome)
        totalPagesDiscovered := some allDiscoveredUrls.length
        pagesScraped := some scrapedPages.length
        priorityPagesFound := some (allDiscoveredUrls.filter keywordHit).length
        scrapedUrls := some (scrapedPages.map Prod.fst)
        sitemapComplete := some true, error := none } }

/-- server.js `professionalScrapeWebsite`: map the site; on a thrown map call
or an empty link set fall back to the single-page strategy; otherwise scrape
the prioritised pages (a per-page error or a page without markdown is skipped
by the per-page `catch`); if no page succeeded fall back to
`enhancedScrapeWebsite`; otherwise aggregate.  The inter-page and rate-limit
sleeps only affect timing and are not modelled. -/
def professionalScrapeWebsite (env : ScrapeEnv) (url : String) : ScrapedSite :=
  match env.mapResult with
  | .error _ => scrapeSinglePage env url
  | .ok links =>
    if links.isEmpty then scrapeSinglePage env url
    else
      let urlsToScrape := computeUrlsToScrape url links
      let scrapedPages := urlsToScrape.filterMap (fun u =>
        match env.scrape u with
        | .ok (some p) => some (u, p)
        | _ => none)
      if scrapedPages.isEmpty then enhancedScrapeWebsite env url
      else aggregateSitemap env url links scrapedPages

/-! ## Generation Pipeline (server.js lines 1200-1574)

The LLM Gateway (`callLLM`) hides three providers behind one
`generate(prompt, maxTokens) -> text` contract; it is modelled as an oracle
function in the environment.  `Except.error` models a thrown provider error. -/

/-- The token-budget part of the in-memory `apiConfig` object (defaults
`maxWebsiteTokens = 8000`, `maxOutreachTokens = 3000`).  Provider selection
and credentials are hidden behind the `llm` oracle. -/
structure ApiConfig where
  maxWebsiteTokens : Nat
  maxOutreachTokens : Nat
deriving DecidableEq

/-- The default `apiConfig` values. -/
def defaultApiConfig : ApiConfig := { maxWebsiteTokens := 8000, maxOutreachTokens := 3000 }

/-- The generation-side external world: the LLM call (prompt and max-token
hint), the clock, and the random-token source used for version ids. -/
structure LlmEnv where
  llm : String → Nat → Except String String
  now : String
  fresh : Nat → String

/-- The user-and-AI-merged business facts.  All fields are strings; a missing
field is the empty string. -/
structure BusinessFacts where
  name : String
  industry : String
  owner : String
  email : String
  phone : String
  services : String
  issues : String
  location : String
  description : String
deriving DecidableEq

/-- One generated website candidate. -/
structure GeneratedSite where
  html : String
  title : String
  description : String
  generatedAt : String
  versionNumber : Option Nat
  versionId : Option String
  error : Option String
deriving DecidableEq

/-- Leading text of the fallback website template, up to the business name in
the `<title>`. -/
def fbA : String :=
  "<!DOCTYPE html>\n<html lang=\"en\">\n<head>\n    <meta charset=\"UTF-8\">\n    <meta name=\"viewport\" content=\"width=device-width, initial-scale=1.0\">\n    <title>"

/-- Remainder of the fallback website template after the `<title>` name. -/
def fbRest (bi : BusinessFacts) : String :=
  "</title>\n    <script src=\"https://cdn.tailwindcss.com\"></script>\n</head>\n<body class=\"bg-gray-50\">\n    <header class=\"bg-blue-600 text-white\">\n        <div class=\"container mx-auto px-6 py-4\">\n            <h1 class=\"text-3xl font-bold\">"
  ++ bi.name ++
  "</h1>\n        </div>\n    </header>\n\n    <main class=\"container mx-auto px-6 py-12\">\n        <section class=\"text-center mb-12\">\n            <h2 class=\"text-4xl font-bold text-gray-800 mb-4\">Welcome to "
  ++ bi.name ++
  "</h2>\n            <p class=\"text-xl text-gray-600\">"
  ++ jsOr bi.services "Professional services you can trust" ++
  "</p>\n        </section>\n\n        <section class=\"grid md:grid-cols-3 gap-8 mb-12\">\n            <div class=\"bg-white p-6 rounded-lg shadow-md\">\n                <h3 class=\"text-xl font-bold mb-4\">Our Services</h3>\n                <p class=\"text-gray-600\">"
  ++ jsOr bi.services "Quality services tailored to your needs." ++
  "</p>\n            </div>\n            <div class=\"bg-white p-6 rounded-lg shadow-md\">\n                <h3 class=\"text-xl font-bold mb-4\">About Us</h3>\n                <p class=\"text-gray-600\">Experienced professionals in "
  ++ jsOr bi.industry "our field" ++
  ".</p>\n            </div>\n            <div class=\"bg-white p-6 rounded-lg shadow-md\">\n                <h3 class=\"text-xl font-bold mb-4\">Contact</h3>\n                <p class=\"text-gray-600\">Get in touch for a consultation.</p>\n            </div>\n        </section>\n    </main>\n\n    <footer class=\"bg-gray-800 text-white py-8\">\n        <div class=\"container mx-auto px-6 text-center\">\n            <p>&copy; 2025 "
  ++ bi.name ++
  ". All rights reserved.</p>\n        </div>\n    </footer>\n</body>\n</html>"

/-- server.js `generateFallbackWebsite`: the deterministic template built
directly from the business facts.  Total by construction. -/
def generateFallbackWebsite (bi : BusinessFacts) : String := fbA ++ (bi.name ++ fbRest bi)

/-- The `AVAILABLE IMAGES` section of the site-synthesis prompt (up to 50
image URLs with alt text). -/
def genImageSection (images : List ImageEntry) : String :=
  if images.isEmpty then ""
  else
    "\n\nAVAILABLE IMAGES FROM ORIGINAL WEBSITE (" ++ toString images.length
      ++ " total, showing " ++ toString (min images.length 50) ++ "):\n"
    ++ (images.take 50).enum.foldl (fun acc p =>
        acc ++ toString (p.1 + 1) ++ ". " ++ p.2.url
          ++ (if p.2.alt == "" then "" else " (alt: \"" ++ p.2.alt ++ "\")") ++ "\n") ""

/-- The site-synthesis prompt of `generateWebsiteWithAI` (text slightly
abridged; its content is opaque to every claim). -/
def websitePrompt (bi : BusinessFacts) (websiteContent imageSection instructions : String) : String :=
  "Create a complete, modern HTML website for this business:\n\nBusiness: " ++ bi.name
  ++ "\nIndustry: " ++ bi.industry
  ++ "\nServices: " ++ bi.services
  ++ "\nCurrent Website Content (" ++ toString websiteContent.length ++ " characters): "
  ++ websiteContent ++ imageSection
  ++ "\n\nInstructions: " ++ instructions
  ++ "\n\nCreate a complete HTML page with:\n- Modern, professional design\n- Responsive layout using Tailwind CSS\n- Hero section with compelling headline\n- Services/products section\n- About section\n- Contact section with form\n- Professional color scheme\n- Mobile-friendly design\n\nIMPORTANT INSTRUCTIONS FOR IMAGES:\n- Use the actual image URLs from the AVAILABLE IMAGES list above whenever possible\n- If original images are not available or suitable, use placeholder images from https://images.unsplash.com/\n\nReturn ONLY the complete HTML code, no explanations."

/-- The code-fence cleanup applied to the LLM reply:
`.replace(/```html/g, '').replace(/```/g, '').trim()`. -/
def cleanHtmlReply (txt : String) : String :=
  strTrim (strReplace (strReplace txt "```html" "") "```" "")

/-- server.js `generateWebsiteWithAI`: build the prompt from up to 500k
characters of scraped content and up to 50 images, call the LLM, clean the
reply; on a thrown LLM error return the fallback-template site carrying the
error message.  An `ok` reply is returned as the site html even when it is
empty. -/
def generateWebsiteWithAI (env : LlmEnv) (cfg : ApiConfig) (scraped : Option ScrapedSite)
    (bi : BusinessFacts) (instructions : String) : GeneratedSite :=
  let websiteContent :=
    jsOrU ((scraped.bind ScrapedSite.fullContent).map (fun s => strTake s 500000))
      (jsOrU ((scraped.map ScrapedSite.content).map (fun s => strTake s 500000)) "No content")
  let images := (scraped.map ScrapedSite.images).getD []
  let prompt := websitePrompt bi websiteContent (genImageSection images) instructions
  match env.llm prompt cfg.maxWebsiteTokens with
  | .error e =>
    { html := generateFallbackWebsite bi
      title := bi.name ++ " Website"
      description := "Professional website for " ++ bi.name
      generatedAt := env.now
      versionNumber := none, versionId := none
      error := some e }
  | .ok txt =>
    { html := cleanHtmlReply txt
      title := "Modern " ++ bi.name ++ " Website"
      description := "AI-generated modern website for " ++ bi.name
      generatedAt := env.now
      versionNumber := none, versionId := none
      error := none }

/-! ## Recreate endpoint: version-count clamping (server.js lines 332-368) -/

/-- The clamp `Math.min(Math.max(parseInt(versionCount) || 1, 1), 5)`.
`none` models a `versionCount` whose `parseInt` is `NaN` (absent or
non-numeric); `parseInt` of the number 0 is 0, which is falsy, hence the
inner `if`. -/
def numVersions (versionCount : Option Int) : Int :=
  let p : Int := match versionCount with
    | none => 1
    | some n => if n = 0 then 1 else n
  min (max p 1) 5

/-- The variation fragment appended to the instructions when more than one
version is requested. -/
def versionInstruction (numV : Int) (instructions : String) (i : Nat) : String :=
  if 1 < numV then
    instructions ++ "\n\n[Version " ++ toString (i + 1)
      ++ ": Create a unique design variation with different layout, color scheme, or style approach]"
  else instructions

/-- The generation loop of the `/api/recreate` handler: `numVersions`
sequential site-synthesis attempts, each pushed with its version number and a
fresh version id (`generateWebsiteWithAI` always returns an object, so every
attempt is pushed). -/
def recreateAttempts (env : LlmEnv) (cfg : ApiConfig) (scraped : Option ScrapedSite)
    (bi : BusinessFacts) (instructions : String) (versionCount : Option Int) : List GeneratedSite :=
  (List.range (numVersions versionCount).toNat).map (fun i =>
    let w := generateWebsiteWithAI env cfg scraped bi
      (versionInstruction (numVersions versionCount) instructions i)
    { w with versionNumber := some (i + 1), versionId := some (env.fresh i) })

/-! ## Outreach generation (server.js lines 1409-1476, 1527-1574) -/

/-- Sender details of an outreach request. -/
structure OutreachInfo where
  yourName : String
  yourEmail : String
  packagePrice : String
deriving DecidableEq

/-- The outreach result: email and proposal text. -/
structure OutreachResult where
  email : String
  proposal : String
  generatedAt : String
  error : Option String
deriving DecidableEq

/-- The cold-email prompt of `generateOutreachWithAI` (text slightly
abridged; opaque to every claim). -/
def emailPromptOf (bi : BusinessFacts) (oi : OutreachInfo) : String :=
  "Create a professional cold email for web design services:\n\nTarget Business: " ++ bi.name
  ++ "\nIndustry: " ++ bi.industry
  ++ "\nCurrent Issues: " ++ bi.issues
  ++ "\nYour Name: " ++ oi.yourName
  ++ "\nYour Email: " ++ oi.yourEmail
  ++ "\nPackage Price: " ++ oi.packagePrice
  ++ "\n\nCreate a compelling cold email that:\n- Has an attention-grabbing subject line\n- Addresses their specific pain points\n- Offers a solution (new website)\n- Shows value and professionalism\n- Includes a clear call to action\n- Keep it concise (under 200 words)\n\nFormat as:\nSubject: [subject line]\n\n[email body]"

/-- The proposal prompt of `generateOutreachWithAI` (text slightly abridged;
opaque to every claim). -/
def proposalPromptOf (bi : BusinessFacts) (oi : OutreachInfo) : String :=
  "Create a detailed website redesign proposal:\n\nClient: " ++ bi.name
  ++ "\nIndustry: " ++ bi.industry
  ++ "\nServices: " ++ bi.services
  ++ "\nCurrent Issues: " ++ bi.issues
  ++ "\nPrice: " ++ oi.packagePrice
  ++ "\nYour Company: " ++ oi.yourName
  ++ "\n\nCreate a professional proposal including:\n- Executive summary\n- Current website analysis\n- Proposed solution\n- Key features and benefits\n- Timeline (suggest 2-3 weeks)\n- Investment breakdown\n- Next steps\n\nMake it compelling and professional."

/-- server.js `generateFallbackEmail` (template text abridged and with the
apostrophes of the source text elided; opaque to every claim). -/
def generateFallbackEmail (bi : BusinessFacts) (oi : OutreachInfo) : String :=
  "Subject: Quick Question About " ++ bi.name ++ " and its Website\n\nHi there,\n\nI was looking at the website of " ++ bi.name
  ++ " and noticed a few areas where we might be able to help you get more customers online.\n\nBest regards,\n"
  ++ oi.yourName ++ "\n" ++ oi.yourEmail
  ++ "\n\nP.S. - I am offering complete website redesigns starting at " ++ oi.packagePrice

/-- server.js `generateFallbackProposal` (template text abridged; opaque to
every claim). -/
def generateFallbackProposal (bi : BusinessFacts) (oi : OutreachInfo) : String :=
  "WEBSITE REDESIGN PROPOSAL\n" ++ bi.name
  ++ "\n\nEXECUTIVE SUMMARY\nThis proposal outlines a complete website redesign for " ++ bi.name
  ++ " to improve online presence and customer acquisition.\n\nINVESTMENT\nComplete website redesign: " ++ oi.packagePrice
  ++ "\n\nTIMELINE\nProject completion: 2-3 weeks\n\n" ++ oi.yourName ++ "\n" ++ oi.yourEmail

/-- server.js `generateOutreachWithAI`: the email prompt is issued with
`maxOutreachTokens / 3` tokens and the proposal prompt with the full
`maxOutreachTokens`; both run under one `Promise.all`, so either rejection
reaches the `catch`, which returns the deterministic fallback texts carrying
the error message (the email rejection is modelled as settling first when
both reject). -/
def generateOutreachWithAI (env : LlmEnv) (cfg : ApiConfig) (bi : BusinessFacts)
    (oi : OutreachInfo) : OutreachResult :=
  match env.llm (emailPromptOf bi oi) (cfg.maxOutreachTokens / 3),
        env.llm (proposalPromptOf bi oi) cfg.maxOutreachTokens with
  | .ok e, .ok p =>
    { email := strTrim e, proposal := strTrim p, generatedAt := env.now, error := none }
  | .error err, _ =>
    { email := generateFallbackEmail bi oi, proposal := generateFallbackProposal bi oi
      generatedAt := env.now, error := some err }
  | _, .error err =>
    { email := generateFallbackEmail bi oi, proposal := generateFallbackProposal bi oi
      generatedAt := env.now, error := some err }

/-! ## Project Store (server.js lines 605-786)

The in-memory `generatedProjects` Map is modelled as an association list in
insertion order; `Map.set` updates in place or appends, `Map.get` finds the
entry, `Map.delete` removes it. -/

/-- Model of JavaScript `Map.prototype.get`: the value of the first entry
with the given key. -/
def assocGet {α : Type} : List (String × α) → String → Option α
  | [], _ => none
  | e :: t, k => if e.1 == k then some e.2 else assocGet t k

/-- Model of JavaScript `Map.prototype.set` (update in place, else append). -/
def assocSet {α : Type} (s : List (String × α)) (k : String) (v : α) : List (String × α) :=
  if s.any (fun e => e.1 == k) then s.map (fun e => if e.1 == k then (k, v) else e)
  else s ++ [(k, v)]

/-- Model of JavaScript `Map.prototype.delete` (the removing half). -/
def assocDel {α : Type} (s : List (String × α)) (k : String) : List (String × α) :=
  s.filter (fun e => e.1 != k)

/-- `validateInput.sanitizeString`: trim, then strip every `<` and `>`. -/
def sanitizeString (s : String) : String :=
  String.mk ((strTrim s).toList.filter (fun c => c != '<' && c != '>'))

/-- `validateInput.projectName`: trimmed length between 3 and 50. -/
def projectNameValid (name : String) : Bool :=
  decide (3 ≤ (strTrim name).length) && decide ((strTrim name).length ≤ 50)

/-- The `businessInfo` part of a project payload.  `rest` stands for the
fields other than `name`/`description` that the handler spreads through
unchanged; a missing `description` is the empty string (both are falsy). -/
structure BusinessInfoPayload where
  name : String
  description : String
  rest : String
deriving DecidableEq

/-- A project payload as posted to `/api/projects`.  `rest` stands for the
arbitrary nested scrape/generation data spread through unchanged. -/
structure ProjectPayload where
  name : String
  businessInfo : BusinessInfoPayload
  rest : String
deriving DecidableEq

/-- A stored project: the payload plus the store-assigned `id` and `savedAt`. -/
structure Project where
  id : String
  name : String
  businessInfo : BusinessInfoPayload
  rest : String
  savedAt : String
deriving DecidableEq

/-- The payload view of a stored project (the fields other than the
store-assigned `id` and `savedAt`). -/
def projectPayloadOf (p : Project) : ProjectPayload :=
  { name := p.name, businessInfo := p.businessInfo, rest := p.rest }

/-- The sanitisation the save handler applies before storing. -/
def sanitizeProjectPayload (p : ProjectPayload) : ProjectPayload :=
  { name := sanitizeString p.name
    businessInfo :=
      { name := sanitizeString p.businessInfo.name
        description := if p.businessInfo.description == "" then ""
          else sanitizeString p.businessInfo.description
        rest := p.businessInfo.rest }
    rest := p.rest }

/-- The project store. -/
def ProjectStore := List (String × Project)

/-- Outcome of the save handler. -/
inductive SaveResult where
  | ok (store : ProjectStore) (projectId : String)
  | invalid (field : String)

/-- `POST /api/projects`: validate the name and the business name, sanitise,
assign a fresh random id (supplied here as the `freshId` oracle value) and
the current timestamp, and store.  Validation failures are the 400
responses. -/
def saveProjectHandler (store : ProjectStore) (payload : ProjectPayload)
    (freshId now : String) : SaveResult :=
  if !projectNameValid payload.name then .invalid "name"
  else if payload.businessInfo.name == "" then .invalid "businessInfo"
  else
    let sp := sanitizeProjectPayload payload
    let project : Project :=
      { id := freshId, name := sp.name, businessInfo := sp.businessInfo
        rest := sp.rest, savedAt := now }
    .ok (assocSet store freshId project) freshId

/-- Alphanumeric check: `id.replace(/[^a-zA-Z0-9]/g, '') === id`. -/
def isAlnumStr (s : String) : Bool := s.toList.all (fun c => c.isAlpha || c.isDigit)

/-- Outcome of the get handler. -/
inductive GetResult where
  | found (p : Project)
  | notFound
  | badId
deriving DecidableEq

/-- `GET /api/projects/:id`: empty and non-alphanumeric ids are 400s,
a missing entry is the 404 not-found response. -/
def getProjectHandler (store : ProjectStore) (id : String) : GetResult :=
  if strTrim id == "" then .badId
  else if !isAlnumStr id then .badId
  else
    match assocGet store id with
    | some p => .found p
    | none => .notFound

/-- Outcome of the delete handler. -/
inductive DeleteResult where
  | deleted (store : ProjectStore)
  | notFound
  | badId

/-- `DELETE /api/projects/:id`: same id validation; reports not-found when
the entry did not exist, otherwise removes it. -/
def deleteProjectHandler (store : ProjectStore) (id : String) : DeleteResult :=
  if strTrim id == "" then .badId
  else if !isAlnumStr id then .badId
  else if (assocGet store id).isSome then .deleted (assocDel store id)
  else .notFound

/-! ## Site Publisher view counting (server.js lines 1724-1785)

The per-site `meta.json` files are modelled as an association list keyed by
`siteId`. -/

/-- The hosted-site metadata record. -/
structure SiteMeta where
  siteId : String
  businessName : String
  createdAt : String
  lastAccessed : String
  viewCount : Nat
deriving DecidableEq

/-- The read-modify-write body of `updateSiteVisit`. -/
def bumpMeta (m : SiteMeta) (t : String) : SiteMeta :=
  { m with viewCount := m.viewCount + 1, lastAccessed := t }

/-- server.js `updateSiteVisit`: read the metadata, increment `viewCount`,
update `lastAccessed`, write it back; a read failure is caught and returns
`null` leaving the store unchanged. -/
def updateSiteVisit (s : List (String × SiteMeta)) (siteId t : String) :
    List (String × SiteMeta) × Option SiteMeta :=
  match assocGet s siteId with
  | none => (s, none)
  | some m => (assocSet s siteId (bumpMeta m t), some (bumpMeta m t))

/-- Two concurrent `updateSiteVisit` calls on the same site interleaved as
read-A, read-B, write-A, write-B.  The interleaving is possible because the
file read and the file write of `updateSiteVisit` are separate `await`
suspension points with no per-site serialisation. -/
def racedDoubleVisit (s : List (String × SiteMeta)) (siteId tA tB : String) :
    List (String × SiteMeta) :=
  match assocGet s siteId, assocGet s siteId with
  | some mA, some mB => assocSet (assocSet s siteId (bumpMeta mA tA)) siteId (bumpMeta mB tB)
  | some mA, none => assocSet s siteId (bumpMeta mA tA)
  | none, some mB => assocSet s siteId (bumpMeta mB tB)
  | none, none => s

/-! ## Claim-side (specification-worded) definitions

These restate parts of the specification in its own words, to be compared
with the source-derived definitions above. -/

/-- Spec wording of C3: order-preserving deduplication, written here as a
left fold that appends each element not already emitted. -/
def specDedup (xs : List String) : List String :=
  xs.foldl (fun acc x => if x ∈ acc then acc else acc ++ [x]) []

/-- Spec wording of C3: the first `n` elements of a list that satisfy `p`,
written as a direct recursion. -/
def specFirstMatching : Nat → (String → Bool) → List String → List String
  | _, _, [] => []
  | 0, _, _ => []
  | n + 1, p, x :: xs =>
    if p x then x :: specFirstMatching n p xs else specFirstMatching (n + 1) p xs

/-- Spec wording of C3: the scraped page set is the first 8 elements, after
order-preserving deduplication, of homepage, first-12 keyword matches,
first-8 discovered. -/
def specPriorityPages (url : String) (links : List String) : List String :=
  (specDedup ([url] ++ specFirstMatching 12 keywordHit links ++ links.take 8)).take 8

/-- The C1 invariant: `hasContactInfo` equals the presence-or of the business
email and phone whenever the field is present, and the field is present on
every method except the terminal error fallback. -/
def hciInvariant (r : ScrapedSite) : Prop :=
  r.metadata.hasContactInfo =
    (if r.metadata.method = "fallback" then none
     else some (r.businessInfo.email.isSome || r.businessInfo.phone.isSome))

/-- C10 wording under test: an internal URL-parsing failure in
`extractImages` (the base URL does not parse and some image src needs
resolving) yields the empty list. -/
def imagesParseFailureYieldsEmpty (html baseUrl : String) : Prop :=
  (urlParse baseUrl = none ∧ (imgTagSrcs html).any (fun s => !(strStarts s "http")) = true) →
    extractImages html baseUrl = []

/-! ## Concrete inputs used by witnesses and counterexamples -/

/-- An environment in which every external call throws: the map call, every
page scrape, and the direct fetch. -/
def envAllDown : ScrapeEnv :=
  { mapResult := .error "map down"
    scrape := fun _ => .error "scrape down"
    fetchHtml := .error "network down"
    now := "2025-01-01T00:00:00Z" }

/-- An environment whose map call succeeds but whose every page scrape
throws and whose direct fetch throws. -/
def envPagesDown : ScrapeEnv :=
  { mapResult := .ok ["https://example.com/about"]
    scrape := fun _ => .error "Rate limit exceeded"
    fetchHtml := .error "fetch failed"
    now := "2025-01-01T00:00:00Z" }

/-- Business facts with only a name. -/
def biAcme : BusinessFacts :=
  { name := "Acme", industry := "", owner := "", email := "", phone := ""
    services := "", issues := "", location := "", description := "" }

/-- Sender details used by the outreach examples. -/
def oiSample : OutreachInfo :=
  { yourName := "Jo Doe", yourEmail := "jo@doe.dev", packagePrice := "$500" }

/-- An LLM environment that always throws. -/
def llmEnvThrows : LlmEnv :=
  { llm := fun _ _ => .error "provider down", now := "t0", fresh := fun _ => "vid" }

/-- An LLM environment that returns the empty string. -/
def llmEnvEmpty : LlmEnv :=
  { llm := fun _ _ => .ok "", now := "t0", fresh := fun _ => "vid" }

/-- An LLM environment that echoes the token budget it was handed, used to
observe the budgets `generateOutreachWithAI` passes. -/
def llmEnvEchoBudget : LlmEnv :=
  { llm := fun _ n => .ok (toString n), now := "t0", fresh := fun _ => "vid" }

/-- An LLM environment that labels the budget it was handed relative to `t`:
the full budget, one third of it, or anything else. -/
def budgetProbeEnv (t : Nat) : LlmEnv :=
  { llm := fun _ n =>
      .ok (if n = t then "full-budget" else if n = t / 3 then "one-third-budget" else "other")
    now := "t0", fresh := fun _ => "vid" }

/-- The project payload of the round-trip counterexample: a valid name that
the save handler nevertheless rewrites. -/
def cexPayload : ProjectPayload :=
  { name := "My <Project>"
    businessInfo := { name := "Acme", description := "", rest := "" }
    rest := "bundle" }

/-- What the save handler actually stores for `cexPayload`. -/
def cexStoredProject : Project :=
  { id := "abc123", name := "My Project"
    businessInfo := { name := "Acme", description := "", rest := "" }
    rest := "bundle", savedAt := "t1" }

/-- A hosted-site store with one site that has never been viewed. -/
def hostStore0 : List (String × SiteMeta) :=
  [("site1", { siteId := "site1", businessName := "Acme", createdAt := "t0"
               lastAccessed := "t0", viewCount := 0 })]

/-! ## Helper lemmas -/

theorem dedupByKey_sublist {α : Type} (key : α → String) (seen : List String) (xs : List α) :
    (dedupByKey key seen xs).Sublist xs := by
  induction xs generalizing seen with
  | nil => simp [dedupByKey]
  | cons x xs ih =>
    simp only [dedupByKey]
    by_cases hx : key x ∈ seen
    · rw [if_pos hx]
      exact (ih seen).cons x
    · rw [if_neg hx]
      exact (ih (key x :: seen)).cons₂ x

theorem dedupByKey_key_not_mem {α : Type} (key : α → String) (seen : List String) (xs : List α) :
    ∀ a ∈ dedupByKey key seen xs, key a ∉ seen := by
  induction xs generalizing seen with
  | nil => simp [dedupByKey]
  | cons x xs ih =>
    simp only [dedupByKey]
    by_cases hx : key x ∈ seen
    · rw [if_pos hx]; exact ih seen
    · rw [if_neg hx]
      intro a ha
      rcases List.mem_cons.mp ha with h | h
      · subst h; exact hx
      · intro hs
        exact ih (key x :: seen) a h (List.mem_cons_of_mem _ hs)

theorem dedupByKey_map_key_nodup {α : Type} (key : α → String) (seen : List String)
    (xs : List α) : ((dedupByKey key seen xs).map key).Nodup := by
  induction xs generalizing seen with
  | nil => simp [dedupByKey]
  | cons x xs ih =>
    simp only [dedupByKey]
    by_cases hx : key x ∈ seen
    · rw [if_pos hx]; exact ih seen
    · rw [if_neg hx]
      simp only [List.map_cons, List.nodup_cons]
      constructor
      · intro hmem
        rcases List.mem_map.mp hmem with ⟨a, ha, hkey⟩
        exact dedupByKey_key_not_mem key (key x :: seen) xs a ha (hkey ▸ List.mem_cons_self _ _)
      · exact ih (key x :: seen)

theorem specFirstMatching_eq_filter_take (n : Nat) (p : String → Bool) (xs : List String) :
    specFirstMatching n p xs = (xs.filter p).take n := by
  induction xs generalizing n with
  | nil => cases n <;> simp [specFirstMatching]
  | cons x xs ih =>
    cases n with
    | zero =>
      simp only [specFirstMatching, List.take_zero]
    | succ m =>
      by_cases hp : p x
      · simp [specFirstMatching, hp, ih]
      · simp [specFirstMatching, hp, ih]

theorem specDedup_foldl (xs : List String) : ∀ (acc seen : List String),
    (∀ a, a ∈ acc ↔ a ∈ seen) →
    xs.foldl (fun acc x => if x ∈ acc then acc else acc ++ [x]) acc =
      acc ++ dedupByKey (fun l => l) seen xs := by
  induction xs with
  | nil => intro acc seen _; simp [dedupByKey]
  | cons x xs ih =>
    intro acc seen h
    simp only [List.foldl_cons, dedupByKey]
    by_cases hx : x ∈ seen
    · rw [if_pos ((h x).mpr hx), if_pos hx]
      exact ih acc seen h
    · rw [if_neg (fun hc => hx ((h x).mp hc)), if_neg hx]
      rw [ih (acc ++ [x]) (x :: seen) (fun a => by simp [h a, or_comm])]
      simp

theorem specDedup_eq_dedupByKey (xs : List String) :
    specDedup xs = dedupByKey (fun l => l) [] xs := by
  simpa [specDedup] using specDedup_foldl xs [] [] (by simp)

/-! ## Claim C3 -/

/-- C3: for every mapping result with at least one discovered URL, the page
set scraped by the sitemap strategy equals the first 8 elements, after
order-preserving deduplication, of homepage ++ first-12 keyword-matching
discovered URLs ++ first-8 discovered URLs, and the homepage is always
first. -/
theorem sitemap_priority_pages (url : String) (links : List String) (hne : links ≠ []) :
    computeUrlsToScrape url links = specPriorityPages url links ∧
    (computeUrlsToScrape url links).head? = some url := by
  constructor
  · unfold computeUrlsToScrape specPriorityPages
    rw [specDedup_eq_dedupByKey, specFirstMatching_eq_filter_take]
  · unfold computeUrlsToScrape
    simp [dedupByKey]

/-- Witness for C3 at a concrete one-page mapping result. -/
theorem sitemap_priority_pages_witness :
    computeUrlsToScrape "https://example.com" ["https://example.com/about"] =
      specPriorityPages "https://example.com" ["https://example.com/about"] ∧
    (computeUrlsToScrape "https://example.com" ["https://example.com/about"]).head? =
      some "https://example.com" :=
  sitemap_priority_pages "https://example.com" ["https://example.com/about"] (by simp)

/-! ## Claim C2 -/

/-- C2: the orchestrator never raises: when the map call succeeds with at
least one link but every per-page scrape call fails (throws or returns no
markdown), the final result is exactly the result of the enhanced-fallback
strategy, its method indicates that strategy, and when even the direct fetch
throws the terminal degraded result carries the error message. -/
theorem orchestrator_degrades_to_enhanced (env : ScrapeEnv) (url : String)
    (links : List String) (hmap : env.mapResult = .ok links) (hne : links ≠ [])
    (hfail : ∀ u p, env.scrape u ≠ .ok (some p)) :
    professionalScrapeWebsite env url = enhancedScrapeWebsite env url ∧
    ((professionalScrapeWebsite env url).metadata.method = "enhanced" ∨
      (professionalScrapeWebsite env url).metadata.method = "fallback") ∧
    (∀ e, env.fetchHtml = .error e →
      (professionalScrapeWebsite env url).metadata.method = "fallback" ∧
      (professionalScrapeWebsite env url).metadata.error = some e) := by
  have hempty : links.isEmpty = false := by
    cases links with
    | nil => exact absurd rfl hne
    | cons a as => rfl
  have hpages : (computeUrlsToScrape url links).filterMap (fun u =>
      match env.scrape u with
      | .ok (some p) => some (u, p)
      | _ => none) = [] := by
    rw [List.filterMap_eq_nil_iff]
    intro a _
    cases hsc : env.scrape a with
    | error e => simp [hsc]
    | ok o =>
      cases o with
      | none => simp [hsc]
      | some p => exact absurd hsc (hfail a p)
  have h1 : professionalScrapeWebsite env url = enhancedScrapeWebsite env url := by
    unfold professionalScrapeWebsite
    rw [hmap]
    simp [hempty, hpages]
  refine ⟨h1, ?_, ?_⟩
  · rw [h1]
    unfold enhancedScrapeWebsite
    cases env.fetchHtml with
    | error e => right; rfl
    | ok h => left; rfl
  · intro e he
    rw [h1]
    unfold enhancedScrapeWebsite
    rw [he]
    exact ⟨rfl, rfl⟩

/-- Witness for C2: one discovered page, every scrape call throwing, the
direct fetch throwing. -/
theorem orchestrator_degrades_to_enhanced_witness :
    professionalScrapeWebsite envPagesDown "https://example.com" =
      enhancedScrapeWebsite envPagesDown "https://example.com" ∧
    ((professionalScrapeWebsite envPagesDown "https://example.com").metadata.method = "enhanced" ∨
      (professionalScrapeWebsite envPagesDown "https://example.com").metadata.method = "fallback") ∧
    (∀ e, envPagesDown.fetchHtml = .error e →
      (professionalScrapeWebsite envPagesDown "https://example.com").metadata.method = "fallback" ∧
      (professionalScrapeWebsite envPagesDown "https://example.com").metadata.error = some e) :=
  orchestrator_degrades_to_enhanced envPagesDown "https://example.com"
    ["https://example.com/about"] rfl (by simp) (fun u p h => by simp [envPagesDown] at h)

/-! ## Claim C1 -/

theorem hci_enhanced (env : ScrapeEnv) (url : String) :
    hciInvariant (enhancedScrapeWebsite env url) := by
  unfold hciInvariant enhancedScrapeWebsite
  cases env.fetchHtml with
  | error e => simp
  | ok h =>
    have hm : ("enhanced" : String) ≠ "fallback" := by decide
    simp [hm]

theorem hci_single (env : ScrapeEnv) (url : String) :
    hciInvariant (scrapeSinglePage env url) := by
  unfold scrapeSinglePage
  cases hsc : env.scrape url with
  | error e => exact hci_enhanced env url
  | ok o =>
    cases o with
    | none => exact hci_enhanced env url
    | some page =>
      unfold hciInvariant
      have hm : ("firecrawl-single" : String) ≠ "fallback" := by decide
      simp [hm]

theorem hci_professional (env : ScrapeEnv) (url : String) :
    hciInvariant (professionalScrapeWebsite env url) := by
  unfold professionalScrapeWebsite
  cases hmr : env.mapResult with
  | error e => exact hci_single env url
  | ok links =>
    by_cases hl : links.isEmpty
    · simp only [hl, if_true]
      exact hci_single env url
    · simp only [hl, if_false]
      set pages := (computeUrlsToScrape url links).filterMap (fun u =>
        match env.scrape u with
        | .ok (some p) => some (u, p)
        | _ => none) with hpages
      by_cases hp : pages.isEmpty
      · simp only [hp, if_true]
        exact hci_enhanced env url
      · simp only [hp, if_false]
        unfold hciInvariant aggregateSitemap
        have hm : ("firecrawl-sitemap-comprehensive" : String) ≠ "fallback" := by decide
        simp [hm]

/-- C1 (amended): in every scrape code path, the `hasContactInfo` metadata
field, whenever it is present, equals the presence-or of the extracted
business email and phone; it is present in exactly the sitemap, single-page
and enhanced result shapes, and absent (the key is not written) in the
terminal error-fallback result shape. -/
theorem hasContactInfo_invariant_amended (env : ScrapeEnv) (url : String) :
    hciInvariant (professionalScrapeWebsite env url) ∧
    hciInvariant (scrapeSinglePage env url) ∧
    hciInvariant (enhancedScrapeWebsite env url) :=
  ⟨hci_professional env url, hci_single env url, hci_enhanced env url⟩

/-- Counterexample for C1 as stated: in the error-fallback path (every
provider call and the direct fetch throw) the produced metadata has no
`hasContactInfo` field at all, so it does not equal the (false) or of the
email/phone presence. -/
theorem hasContactInfo_error_fallback_cex :
    ¬ ((professionalScrapeWebsite envAllDown "https://example.com").metadata.hasContactInfo =
        some ((professionalScrapeWebsite envAllDown "https://example.com").businessInfo.email.isSome ||
          (professionalScrapeWebsite envAllDown "https://example.com").businessInfo.phone.isSome)) := by
  intro h
  have hnone : (professionalScrapeWebsite envAllDown "https://example.com").metadata.hasContactInfo
      = none := rfl
  rw [hnone] at h
  exact Option.noConfusion h

/-! ## Claim C4 -/

/-- C4 (amended): `extractLinks` never returns duplicates, preserves
first-seen candidate order (its output is a sublist of the resolved
candidate sequence), resolves root-relative paths against the origin of
`baseUrl` (the resolution step of the candidate sequence), and returns at
most 15 links — but its scheme guard is only the textual prefix `http`, so
every returned link starts with `http` without necessarily being an absolute
`http`/`https` URL. -/
theorem extractLinks_props_amended (html baseUrl : String) :
    (extractLinks html baseUrl).Nodup ∧
    (extractLinks html baseUrl).length ≤ 15 ∧
    (extractLinks html baseUrl).all (fun l => strStarts l "http") = true ∧
    (extractLinks html baseUrl).Sublist ((hrefCaptures html).map (resolveLink baseUrl)) := by
  unfold extractLinks
  by_cases hg : (hrefCaptures html).any (fun u => strStarts u "/") &&
      (urlOrigin baseUrl).isNone
  · simp [hg]
  · simp only [hg, Bool.false_eq_true, if_false]
    set L := ((hrefCaptures html).map (resolveLink baseUrl)).filter
      (fun l => strStarts l "http") with hL
    have hsub : ((dedupByKey (fun l => l) [] L).take 15).Sublist L :=
      (List.take_sublist 15 _).trans (dedupByKey_sublist (fun l => l) [] L)
    refine ⟨?_, ?_, ?_, ?_⟩
    · have hnd : ((dedupByKey (fun l => l) [] L).map (fun l => l)).Nodup :=
        dedupByKey_map_key_nodup (fun l => l) [] L
      rw [List.map_id'] at hnd
      exact hnd.sublist (List.take_sublist 15 _)
    · exact (List.length_take_le 15 _)
    · rw [List.all_eq_true]
      intro l hl
      have hmem : l ∈ L := hsub.subset hl
      rw [hL] at hmem
      exact (List.mem_filter.mp hmem).2
    · exact hsub.trans (List.filter_sublist _)

/-- Counterexample for C4 as stated: the capture `httpdocs/page` passes the
`startsWith('http')` guard yet is a relative reference whose scheme is
neither `http` nor `https`. -/
theorem extractLinks_nonhttp_scheme_cex :
    extractLinks "<a href=\"httpdocs/page\">" "https://example.com" = ["httpdocs/page"] ∧
    ¬ (strStarts "httpdocs/page" "http://" = true ∨ strStarts "httpdocs/page" "https://" = true) := by
  constructor
  · rfl
  · decide

/-! ## Claim C5 -/

/-- C5 (amended): the two outreach prompts are each bounded by an independent
token budget, but the split is not one-third/two-thirds of the configured
total: the email call is issued with `maxOutreachTokens / 3` tokens and the
proposal call with the full `maxOutreachTokens`.  Observed through an oracle
that labels the budget it is handed. -/
theorem outreach_budget_split (t : Nat) (h : t / 3 ≠ t) (bi : BusinessFacts)
    (oi : OutreachInfo) :
    (generateOutreachWithAI (budgetProbeEnv t)
      { maxWebsiteTokens := 8000, maxOutreachTokens := t } bi oi).email = "one-third-budget" ∧
    (generateOutreachWithAI (budgetProbeEnv t)
      { maxWebsiteTokens := 8000, maxOutreachTokens := t } bi oi).proposal = "full-budget" := by
  unfold generateOutreachWithAI budgetProbeEnv
  simp only [if_neg h, if_pos rfl]
  constructor <;> rfl

/-- Witness for C5 (amended) at the default outreach budget of 3000 tokens. -/
theorem outreach_budget_split_witness :
    (generateOutreachWithAI (budgetProbeEnv 3000)
      { maxWebsiteTokens := 8000, maxOutreachTokens := 3000 } biAcme oiSample).email =
      "one-third-budget" ∧
    (generateOutreachWithAI (budgetProbeEnv 3000)
      { maxWebsiteTokens := 8000, maxOutreachTokens := 3000 } biAcme oiSample).proposal =
      "full-budget" :=
  outreach_budget_split 3000 (by decide) biAcme oiSample

/-- Counterexample for C5 as stated: with the default 3000-token outreach
budget and an oracle that echoes the budget it is handed, the proposal call
reports 3000 tokens, not the 2000 a one-third/two-thirds split of the total
would give. -/
theorem outreach_budget_cex :
    (generateOutreachWithAI llmEnvEchoBudget defaultApiConfig biAcme oiSample).proposal = "3000" ∧
    2 * defaultApiConfig.maxOutreachTokens / 3 = 2000 ∧
    ("3000" : String) ≠ "2000" := by
  refine ⟨rfl, rfl, ?_⟩
  decide

/-! ## Claim C6 -/

set_option maxRecDepth 8192 in
theorem generateFallbackWebsite_contains_name (bi : BusinessFacts) :
    generateFallbackWebsite bi ≠ "" ∧
    ∃ pre post, generateFallbackWebsite bi = pre ++ (bi.name ++ post) := by
  constructor
  · intro h
    have hlen := congrArg String.length h
    rw [generateFallbackWebsite, String.length_append] at hlen
    have hpos : 0 < fbA.length := by decide
    simp at hlen
    omega
  · exact ⟨fbA, fbRest bi, rfl⟩

/-- C6 (amended): when the LLM call throws, `generateWebsiteWithAI` returns
the deterministic fallback-template site, whose html is non-empty and
contains the business name, with the error message attached; the fallback
template itself is a total function.  However (see the counterexample) an
`ok` but empty LLM reply is returned as-is with empty html: only a thrown
call reaches the fallback. -/
theorem generateWebsite_fallback_on_error (env : LlmEnv) (cfg : ApiConfig)
    (scraped : Option ScrapedSite) (bi : BusinessFacts) (instructions e : String)
    (hthrow : ∀ p n, env.llm p n = .error e) (hname : bi.name ≠ "") :
    (generateWebsiteWithAI env cfg scraped bi instructions).html = generateFallbackWebsite bi ∧
    (generateWebsiteWithAI env cfg scraped bi instructions).error = some e ∧
    (generateWebsiteWithAI env cfg scraped bi instructions).html ≠ "" ∧
    ∃ pre post,
      (generateWebsiteWithAI env cfg scraped bi instructions).html = pre ++ (bi.name ++ post) := by
  have hmain : (generateWebsiteWithAI env cfg scraped bi instructions).html =
      generateFallbackWebsite bi ∧
      (generateWebsiteWithAI env cfg scraped bi instructions).error = some e := by
    unfold generateWebsiteWithAI
    simp [hthrow]
  obtain ⟨hne2, pre, post, hcontains⟩ := generateFallbackWebsite_contains_name bi
  exact ⟨hmain.1, hmain.2, hmain.1 ▸ hne2, pre, post, hmain.1 ▸ hcontains⟩

/-- Witness for C6 (amended): an always-throwing gateway and a business named
`Acme`. -/
theorem generateWebsite_fallback_on_error_witness :
    (generateWebsiteWithAI llmEnvThrows defaultApiConfig none biAcme "").html =
      generateFallbackWebsite biAcme ∧
    (generateWebsiteWithAI llmEnvThrows defaultApiConfig none biAcme "").error =
      some "provider down" ∧
    (generateWebsiteWithAI llmEnvThrows defaultApiConfig none biAcme "").html ≠ "" ∧
    ∃ pre post, (generateWebsiteWithAI llmEnvThrows defaultApiConfig none biAcme "").html =
      pre ++ (biAcme.name ++ post) :=
  generateWebsite_fallback_on_error llmEnvThrows defaultApiConfig none biAcme "" "provider down"
    (fun _ _ => rfl) (by decide)

/-- Counterexample for C6 as stated: an LLM call that returns an empty reply
is not a thrown error, so the empty html is returned as the generated site
with no fallback — the html is empty and cannot contain the business name. -/
theorem generateWebsite_empty_reply_cex :
    (generateWebsiteWithAI llmEnvEmpty defaultApiConfig none biAcme "").html = "" ∧
    ¬ ((generateWebsiteWithAI llmEnvEmpty defaultApiConfig none biAcme "").html ≠ "" ∧
      ∃ pre post, (generateWebsiteWithAI llmEnvEmpty defaultApiConfig none biAcme "").html =
        pre ++ ("Acme" ++ post)) := by
  have hempty : (generateWebsiteWithAI llmEnvEmpty defaultApiConfig none biAcme "").html = "" := rfl
  exact ⟨hempty, fun h => h.1 hempty⟩

/-! ## Claim C7 -/

/-- C7: the recreate loop performs exactly `min(max(versionCount, 1), 5)`
site-synthesis attempts for a numeric `versionCount` (so 7 clamps to 5 and 0
or a negative clamps to 1) and exactly 1 attempt for a non-numeric or absent
`versionCount` (`parseInt` gives `NaN`, modelled by `none`). -/
theorem recreate_version_clamp (env : LlmEnv) (cfg : ApiConfig) (scraped : Option ScrapedSite)
    (bi : BusinessFacts) (instructions : String) (versionCount : Option Int) :
    (recreateAttempts env cfg scraped bi instructions versionCount).length =
      (match versionCount with
       | none => 1
       | some n => (min (max n 1) 5).toNat) := by
  unfold recreateAttempts
  rw [List.length_map, List.length_range]
  cases versionCount with
  | none => rfl
  | some n =>
    unfold numVersions
    by_cases hn : n = 0
    · subst hn; decide
    · simp [hn]

/-! ## Claim C8 -/

theorem assocGet_map_set {α : Type} (k : String) (v : α) :
    ∀ (s : List (String × α)), s.any (fun e => e.1 == k) = true →
      assocGet (s.map (fun e => if e.1 == k then (k, v) else e)) k = some v := by
  intro s
  induction s with
  | nil => intro h; simp at h
  | cons a t ih =>
    intro h
    by_cases ha : (a.1 == k) = true
    · simp [assocGet, ha]
    · have ht : t.any (fun e => e.1 == k) = true := by
        simp only [List.any_cons, ha, Bool.false_or] at h
        exact h
      simpa [assocGet, ha] using ih ht

theorem assocGet_append_new {α : Type} (k : String) (v : α) :
    ∀ (s : List (String × α)), s.any (fun e => e.1 == k) = false →
      assocGet (s ++ [(k, v)]) k = some v := by
  intro s
  induction s with
  | nil => simp [assocGet]
  | cons a t ih =>
    intro h
    simp only [List.any_cons, Bool.or_eq_false_iff] at h
    simpa [assocGet, h.1] using ih h.2

theorem assocGet_set_self {α : Type} (s : List (String × α)) (k : String) (v : α) :
    assocGet (assocSet s k v) k = some v := by
  unfold assocSet
  by_cases h : s.any (fun e => e.1 == k)
  · rw [if_pos h]; exact assocGet_map_set k v s h
  · rw [if_neg h]
    exact assocGet_append_new k v s (Bool.eq_false_iff.mpr h)

theorem assocGet_del_self {α : Type} (s : List (String × α)) (k : String) :
    assocGet (assocDel s k) k = none := by
  unfold assocDel
  induction s with
  | nil => rfl
  | cons a t ih =>
    by_cases ha : (a.1 != k) = true
    · have hne : (a.1 == k) = false := by
        simpa [bne] using ha
      simpa [List.filter_cons, ha, assocGet, hne] using ih
    · simpa [List.filter_cons, ha] using ih

/-- The project the save handler stores for a given payload, id and time. -/
def storedProjectFor (payload : ProjectPayload) (freshId now : String) : Project :=
  { id := freshId
    name := (sanitizeProjectPayload payload).name
    businessInfo := (sanitizeProjectPayload payload).businessInfo
    rest := payload.rest
    savedAt := now }

/-- C8 (amended): saving a valid payload and getting it by the returned id
yields exactly the stored project, which equals the payload up to the
store-assigned id and savedAt fields AND the sanitisation the handler applies
(trim plus angle-bracket stripping of the project name, business name and
business description); deleting it and getting it again yields not-found. -/
theorem project_roundtrip_amended (store : ProjectStore) (payload : ProjectPayload)
    (freshId now : String)
    (hvalid : projectNameValid payload.name = true)
    (hbn : payload.businessInfo.name ≠ "")
    (hid1 : strTrim freshId ≠ "") (hid2 : isAlnumStr freshId = true) :
    saveProjectHandler store payload freshId now =
      .ok (assocSet store freshId (storedProjectFor payload freshId now)) freshId ∧
    getProjectHandler (assocSet store freshId (storedProjectFor payload freshId now)) freshId =
      .found (storedProjectFor payload freshId now) ∧
    projectPayloadOf (storedProjectFor payload freshId now) = sanitizeProjectPayload payload ∧
    deleteProjectHandler (assocSet store freshId (storedProjectFor payload freshId now)) freshId =
      .deleted (assocDel (assocSet store freshId (storedProjectFor payload freshId now)) freshId) ∧
    getProjectHandler
      (assocDel (assocSet store freshId (storedProjectFor payload freshId now)) freshId) freshId =
      .notFound := by
  have hbn' : (payload.businessInfo.name == "") = false := by
    simpa using hbn
  have hid1' : (strTrim freshId == "") = false := by
    simpa using hid1
  refine ⟨?_, ?_, ?_, ?_, ?_⟩
  · unfold saveProjectHandler
    simp [hvalid, hbn']
    rfl
  · unfold getProjectHandler
    rw [hid1', hid2]
    simp [assocGet_set_self]
  · rfl
  · unfold deleteProjectHandler
    rw [hid1', hid2]
    simp [assocGet_set_self]
  · unfold getProjectHandler
    rw [hid1', hid2]
    simp [assocGet_del_self]

/-- Witness for C8 (amended) at a concrete valid payload. -/
theorem project_roundtrip_amended_witness :
    saveProjectHandler [] ⟨"Cafe Site", ⟨"Acme", "", ""⟩, "bundle"⟩ "abc123" "t1" =
      .ok (assocSet [] "abc123"
        (storedProjectFor ⟨"Cafe Site", ⟨"Acme", "", ""⟩, "bundle"⟩ "abc123" "t1")) "abc123" ∧
    getProjectHandler (assocSet [] "abc123"
      (storedProjectFor ⟨"Cafe Site", ⟨"Acme", "", ""⟩, "bundle"⟩ "abc123" "t1")) "abc123" =
      .found (storedProjectFor ⟨"Cafe Site", ⟨"Acme", "", ""⟩, "bundle"⟩ "abc123" "t1") ∧
    projectPayloadOf (storedProjectFor ⟨"Cafe Site", ⟨"Acme", "", ""⟩, "bundle"⟩ "abc123" "t1") =
      sanitizeProjectPayload ⟨"Cafe Site", ⟨"Acme", "", ""⟩, "bundle"⟩ ∧
    deleteProjectHandler (assocSet [] "abc123"
      (storedProjectFor ⟨"Cafe Site", ⟨"Acme", "", ""⟩, "bundle"⟩ "abc123" "t1")) "abc123" =
      .deleted (assocDel (assocSet [] "abc123"
        (storedProjectFor ⟨"Cafe Site", ⟨"Acme", "", ""⟩, "bundle"⟩ "abc123" "t1")) "abc123") ∧
    getProjectHandler (assocDel (assocSet [] "abc123"
      (storedProjectFor ⟨"Cafe Site", ⟨"Acme", "", ""⟩, "bundle"⟩ "abc123" "t1")) "abc123")
      "abc123" = .notFound :=
  project_roundtrip_amended [] ⟨"Cafe Site", ⟨"Acme", "", ""⟩, "bundle"⟩ "abc123" "t1"
    (by decide) (by decide) (by decide) (by decide)

/-- Counterexample for C8 as stated: the payload name `My <Project>` is valid
(12 characters) but the save handler strips the angle brackets, so the
project returned by the subsequent get is not structurally equal to the
payload outside the id and savedAt fields. -/
theorem project_roundtrip_sanitization_cex :
    saveProjectHandler [] cexPayload "abc123" "t1" =
      .ok [("abc123", cexStoredProject)] "abc123" ∧
    getProjectHandler [("abc123", cexStoredProject)] "abc123" = .found cexStoredProject ∧
    projectPayloadOf cexStoredProject ≠ cexPayload := by
  refine ⟨rfl, rfl, ?_⟩
  decide

/-! ## Claim C9 -/

/-- C9: each sequential successful view increments `viewCount` by exactly 1
(two views take the counter from 0 to 2), but the read-modify-write of
`updateSiteVisit` is not serialised per site: under the interleaving
read-A, read-B, write-A, write-B of two concurrent viewers the counter
ends at 1 — one increment is lost. -/
theorem siteVisit_concurrent_lost_update :
    (assocGet ((updateSiteVisit ((updateSiteVisit hostStore0 "site1" "t1").1) "site1" "t2").1)
      "site1").map SiteMeta.viewCount = some 2 ∧
    (assocGet (racedDoubleVisit hostStore0 "site1" "t1" "t2") "site1").map SiteMeta.viewCount =
      some 1 ∧
    (1 : Nat) ≠ 2 := by
  refine ⟨rfl, rfl, ?_⟩
  decide

/-! ## Claim C10 -/

/-- C10 (amended): the content-extraction helpers are total (every function
below is a total Lean function of its string inputs); `extractImages` returns
at most 100 entries with pairwise-distinct resolved URLs and alt defaulting
to the empty string; `extractBusinessInfo` always returns a record whose
fields are exactly the first matches of the three patterns, absent when there
is no match; a base-URL parse failure empties `extractLinks` whenever some
captured link is root-relative, and empties `extractImages` whenever some
image src is root-relative — but (see the counterexample) a parse failure
affecting only a non-root-relative src drops just that entry. -/
theorem extractors_totality_amended (html baseUrl content : String) :
    (extractImages html baseUrl).length ≤ 100 ∧
    ((extractImages html baseUrl).map ImageEntry.url).Nodup ∧
    ((urlParse baseUrl = none ∧ (hrefCaptures html).any (fun u => strStarts u "/") = true) →
      extractLinks html baseUrl = []) ∧
    ((urlParse baseUrl = none ∧ (imgTagSrcs html).any (fun s => strStarts s "/") = true) →
      extractImages html baseUrl = []) ∧
    (extractBusinessInfo content).email = firstEmailMatch content ∧
    (extractBusinessInfo content).phone = firstPhoneMatch content ∧
    (extractBusinessInfo content).address = firstAddressMatch content := by
  refine ⟨?_, ?_, ?_, ?_, rfl, rfl, rfl⟩
  · unfold extractImages
    by_cases hg : ((imgSrcAlt html).any (fun sa => strStarts sa.1 "/") &&
        (urlParse baseUrl).isNone) = true
    · rw [if_pos hg]
      simp
    · rw [if_neg hg]
      exact List.length_take_le 100 _
  · unfold extractImages
    by_cases hg : ((imgSrcAlt html).any (fun sa => strStarts sa.1 "/") &&
        (urlParse baseUrl).isNone) = true
    · rw [if_pos hg]
      simp
    · rw [if_neg hg]
      rw [List.map_take]
      exact List.Sublist.nodup (List.take_sublist 100 _)
        (dedupByKey_map_key_nodup ImageEntry.url [] _)
  · intro hh
    unfold extractLinks
    have hg : ((hrefCaptures html).any (fun u => strStarts u "/") &&
        (urlOrigin baseUrl).isNone) = true := by
      rw [Bool.and_eq_true]
      refine ⟨hh.2, ?_⟩
      simp [urlOrigin, hh.1]
    rw [if_pos hg]
  · intro hh
    unfold extractImages
    have ha : (imgSrcAlt html).any (fun sa => strStarts sa.1 "/") = true := by
      have h2 := hh.2
      unfold imgTagSrcs at h2
      simpa [List.any_map, Function.comp] using h2
    have hg : ((imgSrcAlt html).any (fun sa => strStarts sa.1 "/") &&
        (urlParse baseUrl).isNone) = true := by
      rw [Bool.and_eq_true]
      refine ⟨ha, ?_⟩
      simp [hh.1]
    rw [if_pos hg]

/-- Witness for C10 (amended): a root-relative link and a root-relative image
src with an unparseable base URL yield the empty lists. -/
theorem extractors_totality_amended_witness :
    extractLinks "<a href=\"/x\">" "notaurl" = [] ∧
    extractImages "<img src=\"/y.png\">" "notaurl" = [] :=
  ⟨(extractors_totality_amended "<a href=\"/x\">" "notaurl" "").2.2.1 ⟨rfl, rfl⟩,
   (extractors_totality_amended "<img src=\"/y.png\">" "notaurl" "").2.2.2.1 ⟨rfl, rfl⟩⟩

/-- Counterexample for C10 as stated: an internal URL-parse failure while
resolving the plain relative src `img/y.png` does not yield the empty list —
the entry is dropped and the absolute entry survives. -/
theorem extractImages_parse_drop_cex :
    ¬ imagesParseFailureYieldsEmpty
      "<img src=\"http://a.com/x.png\"><img src=\"img/y.png\">" "notaurl" := by
  intro h
  have hres := h ⟨rfl, rfl⟩
  have hval : extractImages "<img src=\"http://a.com/x.png\"><img src=\"img/y.png\">" "notaurl" =
      [⟨"http://a.com/x.png", ""⟩] := rfl
  rw [hval] at hres
  exact List.noConfusion hres
